import Mathlib

/-!
Shallow embedding of the RemindMe Devvit app (src/main.tsx): the redis-backed
form-data handoff (`RemindMeFormDataFlow`), the two form submit handlers, and
the scheduler job body (`onRun`). External platform and library functions
(JavaScript `String`/`Number`, `Date.toUTCString`, chrono-node's `parseDate`,
the redis commands, reddit lookups and the private-message channel) are
modelled explicitly below; all operations are pure state-passing functions.
-/

/-! ## Model of JavaScript number-to-string and string-to-number conversion -/

/-- The decimal digit character for `d` (`0`–`9`), JavaScript-style. -/
def digitChar (d : Nat) : Char := Char.ofNat (48 + d)

/-- Whether `c` is a decimal digit character. -/
def isDecDigit (c : Char) : Bool := 48 ≤ c.toNat && c.toNat ≤ 57

/-- Big-endian decimal digits of `n`, structurally recursive on a fuel bound. -/
def natToDecAux : Nat → Nat → List Char
  | 0, _ => []
  | fuel + 1, n =>
    if n < 10 then [digitChar n]
    else natToDecAux fuel (n / 10) ++ [digitChar (n % 10)]

/-- Big-endian decimal digit string of `n` (the digits of JavaScript
`String(n)` for a non-negative integer `n`). -/
def natToDec (n : Nat) : List Char := natToDecAux (n + 1) n

/-- Numeric value of a big-endian decimal digit list. -/
def decValue (cs : List Char) : Nat :=
  cs.foldl (fun a c => a * 10 + (c.toNat - 48)) 0

/-- Decode a big-endian decimal digit list; fails on empty input or any
non-digit character. -/
def decodeDec (cs : List Char) : Option Nat :=
  if cs.isEmpty then none
  else if cs.all isDecDigit then some (decValue cs)
  else none

/-- Models JavaScript `String(n)` for an integer-valued number `n`: the decimal
rendering, with a leading minus sign when negative. -/
def jsStringOfNumber (n : Int) : String :=
  if n < 0 then String.mk ('-' :: natToDec n.natAbs) else String.mk (natToDec n.natAbs)

/-- Models JavaScript `Number(s)` on the strings this app encounters: the empty
string converts to `0`, a (possibly minus-signed) run of decimal digits to the
corresponding integer, and anything else to `none`, standing for `NaN`. -/
def jsNumberOfString (s : String) : Option Int :=
  match s.data with
  | [] => some 0
  | c :: cs =>
    if c = '-' then (decodeDec cs).map (fun m => -(m : Int))
    else (decodeDec (c :: cs)).map (fun m => (m : Int))


/-! ## Model of the redis key-value backend (the hash commands the app uses) -/

/-- A redis hash: field names mapped to string values. -/
abbrev FieldMap := List (String × String)

/-- The observable redis state: per-key hash contents and per-key
time-to-live, as set by the commands the app issues. -/
structure RedisState where
  hashes : List (String × FieldMap)
  expiries : List (String × Nat)
deriving Repr, DecidableEq

/-- First-match association lookup. -/
def assocFind {α : Type} : List (String × α) → String → Option α
  | [], _ => none
  | (k, v) :: rest, key => if k = key then some v else assocFind rest key

/-- Remove every entry for `key`. -/
def assocErase {α : Type} (l : List (String × α)) (key : String) : List (String × α) :=
  l.filter (fun kv => kv.fst != key)

/-- Models redis `hSet key fields`: sets the given fields of the hash at
`key`, keeping any other fields, and creates the key if absent. -/
def hSet (s : RedisState) (key : String) (fields : FieldMap) : RedisState :=
  { s with
    hashes := (key, fields ++ ((assocFind s.hashes key).getD [])) :: assocErase s.hashes key }

/-- Models redis `expire key seconds`: (re)sets the time-to-live of an
existing key; a no-op when the key is absent. -/
def expire (s : RedisState) (key : String) (seconds : Nat) : RedisState :=
  if (assocFind s.hashes key).isSome then
    { s with expiries := (key, seconds) :: assocErase s.expiries key }
  else s

/-- Models redis `hMGet key fields`: the value of each requested field in
order, `none` for a missing field or a missing key. -/
def hMGet (s : RedisState) (key : String) (fields : List String) : List (Option String) :=
  fields.map (fun f => (assocFind s.hashes key).bind (fun m => assocFind m f))

/-- Models redis `del key`. -/
def del (s : RedisState) (key : String) : RedisState :=
  { hashes := assocErase s.hashes key, expiries := assocErase s.expiries key }

/-- The time-to-live currently recorded for `key`. -/
def ttlOf (s : RedisState) (key : String) : Option Nat := assocFind s.expiries key

/-! ## The app's data model and the handoff flow (`RemindMeFormDataFlow`) -/

/-- The parts of `Devvit.Context` the handlers read: the acting user and the
target post, each absent when the flow is triggered outside a valid context. -/
structure FlowContext where
  userId : Option String
  postId : Option String
deriving Repr, DecidableEq

/-- `RemindMeFormData`: the record carried from the input form to the
confirmation form. -/
structure RemindMeFormData where
  reminderTimestamp : Int
deriving Repr, DecidableEq

/-- The handoff key `${userId}::${postId}`. -/
def handoffKey (userId postId : String) : String := userId ++ "::" ++ postId

/-- `RemindMeFormDataFlow.setDataAfterTimeInput` (STEP 1): store the reminder
timestamp, as a string, under the composed key and set a one-hour expiry;
silently a no-op when `userId` or `postId` is unavailable. -/
def setDataAfterTimeInput (context : FlowContext) (data : RemindMeFormData)
    (s : RedisState) : RedisState :=
  match context.userId, context.postId with
  | some userId, some postId =>
    let key := handoffKey userId postId
    expire (hSet s key [("reminderTimestamp", jsStringOfNumber data.reminderTimestamp)])
      key (1 * 60 * 60)
  | _, _ => s

/-- `RemindMeFormDataFlow.retrieveDataAfterTimeConfirmation` (STEP 2): read
the `reminderTimestamp` field, delete the key regardless of the outcome, then
return the decoded record, or `none` when the context is incomplete or the
field is missing or empty. A stored string JavaScript would convert to `NaN`
is treated as absent here; the only writer stores `jsStringOfNumber`
renderings, so that branch is unreachable in the composed system. -/
def retrieveDataAfterTimeConfirmation (context : FlowContext) (s : RedisState) :
    Option RemindMeFormData × RedisState :=
  match context.userId, context.postId with
  | some userId, some postId =>
    let key := handoffKey userId postId
    let res := hMGet s key ["reminderTimestamp"]
    let s1 := del s key
    match res with
    | [some str] =>
      if str = "" then (none, s1)
      else
        match jsNumberOfString str with
        | some ts => (some ⟨ts⟩, s1)
        | none => (none, s1)
    | _ => (none, s1)
  | _, _ => (none, s)

/-! ## The scheduler job and the two form submit handlers -/

/-- `ReminderJobData`: the payload registered with the scheduler. -/
structure ReminderJobData where
  userId : String
  postId : String
  initTimestamp : Int
deriving Repr, DecidableEq

/-- One `context.scheduler.runJob` registration. -/
structure SchedulerJob where
  name : String
  runAt : Int
  data : ReminderJobData
deriving Repr, DecidableEq

def REMINDER_JOB_NAME : String := "reminder"

def APP_NAME : String := "RemindMe"

/-- Models JavaScript `Date.prototype.toUTCString` applied to an
epoch-millisecond timestamp: an external formatting routine, abstracted as a
rendering determined by the timestamp alone. -/
def dateToUTCString (t : Int) : String := "utc " ++ jsStringOfNumber t

/-- Everything one confirmation-form submit produces: the toasts shown, the
scheduler jobs registered, and the redis state left behind. -/
structure ConfirmOutcome where
  toasts : List String
  jobs : List SchedulerJob
  state : RedisState
deriving Repr, DecidableEq

/-- The submit handler of `timeConfirmationForm`. `now` is the single clock
value `new Date()` yields while the handler runs; the comparison
`reminderDate <= nowDate` is the comparison of their epoch milliseconds. -/
def timeConfirmationSubmit (context : FlowContext) (now : Int) (s : RedisState) :
    ConfirmOutcome :=
  match context.postId with
  | none => ⟨[], [], s⟩
  | some postId =>
    match context.userId with
    | none => ⟨["I can only remind you if you\x27re logged in"], [], s⟩
    | some userId =>
      match retrieveDataAfterTimeConfirmation context s with
      | (none, s1) => ⟨["An error occured while setting the reminder"], [], s1⟩
      | (some data, s1) =>
        if data.reminderTimestamp ≤ now then
          ⟨["I can\x27t remind you in the past!"], [], s1⟩
        else
          ⟨["Gotcha! I\x27ll send you a message about this post at " ++
              dateToUTCString data.reminderTimestamp ++ "!"],
            [⟨REMINDER_JOB_NAME, data.reminderTimestamp, ⟨userId, postId, now⟩⟩], s1⟩

/-- Modelled from the spec: chrono-node's `parseDate`, the third-party
natural-language time parser, which is not part of this repository's source.
Per the spec it is a pure function of the text and the ambient reference time,
yielding an absolute epoch-millisecond timestamp for a recognized phrase and
failure otherwise; the recognized phrases here are the spec's examples. -/
def chronoParseDate (text : String) (now : Int) : Option Int :=
  if text = "in one hour" then some (now + 3600000)
  else if text = "2 days from now" then some (now + 2 * 86400000)
  else if text = "yesterday" then some (now - 86400000)
  else none

/-- The results of a sequence of parser calls, each given as the text and the
reference time it is made with. -/
def parseCalls (calls : List (String × Int)) : List (Option Int) :=
  calls.map (fun c => chronoParseDate c.1 c.2)

/-- Everything one input-form submit produces: the toasts shown, the
confirmation form shown (with its payload) if any, and the redis state left
behind. -/
structure TimeInputOutcome where
  toasts : List String
  shownConfirmationForm : Option RemindMeFormData
  state : RedisState
deriving Repr, DecidableEq

/-- The submit handler of `timeInputForm`: parse the free-text time, toast and
halt on failure, otherwise store the handoff record and show the confirmation
form. `now` is the ambient clock chrono-node resolves relative to. -/
def timeInputSubmit (timeString : String) (context : FlowContext) (now : Int)
    (s : RedisState) : TimeInputOutcome :=
  match chronoParseDate timeString now with
  | none => ⟨["I couldn\x27t quite get that!"], none, s⟩
  | some t =>
    let data : RemindMeFormData := ⟨t⟩
    ⟨[], some data, setDataAfterTimeInput context data s⟩

/-- A reddit user record as resolved at fire time. -/
structure RedditUser where
  username : String
deriving Repr, DecidableEq

/-- A reddit post record as resolved at fire time. -/
structure RedditPost where
  title : String
  permalink : String
deriving Repr, DecidableEq

/-- The reddit lookup service as visible to the job body when it fires. -/
structure RedditEnv where
  getUserById : String → Option RedditUser
  getPostById : String → Option RedditPost

/-- One `context.reddit.sendPrivateMessage` call. -/
structure PrivateMessage where
  «to» : String
  subject : String
  text : String
deriving Repr, DecidableEq

/-- The `onRun` body of the reminder scheduler job: resolve the actor and the
target, return silently if either is missing, otherwise send exactly one
private message. `fireTime` is the clock at fire time; the source never reads
it, which the theorems below make explicit. -/
def onRunReminder (env : RedditEnv) (eventData : ReminderJobData) (fireTime : Int) :
    List PrivateMessage :=
  match env.getUserById eventData.userId, env.getPostById eventData.postId with
  | some user, some post =>
    [⟨user.username,
      "Reminder for \x27" ++ post.title ++ "\x27 - " ++ APP_NAME,
      "Hey! You asked me to remind you about [" ++ post.title ++ "](" ++ post.permalink ++
        "). You set this reminder on " ++ dateToUTCString eventData.initTimestamp ++ "!"⟩]
  | _, _ => []

/-! ## Facts about the JavaScript conversion models -/

theorem digitChar_toNat {d : Nat} (h : d < 10) : (digitChar d).toNat = 48 + d := by
  interval_cases d <;> rfl

theorem isDecDigit_digitChar {d : Nat} (h : d < 10) : isDecDigit (digitChar d) = true := by
  interval_cases d <;> rfl

theorem natToDecAux_spec :
    ∀ fuel n, n < fuel →
      natToDecAux fuel n ≠ [] ∧ (natToDecAux fuel n).all isDecDigit = true ∧
        decValue (natToDecAux fuel n) = n := by
  intro fuel
  induction fuel with
  | zero => intro n h; omega
  | succ fuel ih =>
    intro n h
    by_cases hn : n < 10
    · refine ⟨by simp [natToDecAux, hn], ?_, ?_⟩
      · simp [natToDecAux, hn, isDecDigit_digitChar hn]
      · simp [natToDecAux, hn, decValue, digitChar_toNat hn]
    · have hdiv : n / 10 < fuel := by
        have h1 : n / 10 < n := Nat.div_lt_self (by omega) (by omega)
        omega
      obtain ⟨hne, hall, hval⟩ := ih (n / 10) hdiv
      have hmod : n % 10 < 10 := Nat.mod_lt _ (by omega)
      refine ⟨by simp [natToDecAux, hn], ?_, ?_⟩
      · simp only [natToDecAux, if_neg hn, List.all_append]
        simp [hall, isDecDigit_digitChar hmod]
      · simp only [natToDecAux, if_neg hn, decValue, List.foldl_append]
        have : (natToDecAux fuel (n / 10)).foldl (fun a c => a * 10 + (c.toNat - 48)) 0
            = n / 10 := hval
        simp only [List.foldl_cons, List.foldl_nil, this, digitChar_toNat hmod]
        omega

theorem natToDec_ne_nil (n : Nat) : natToDec n ≠ [] :=
  (natToDecAux_spec (n + 1) n (Nat.lt_succ_self n)).1

theorem decodeDec_natToDec (n : Nat) : decodeDec (natToDec n) = some n := by
  obtain ⟨hne, hall, hval⟩ := natToDecAux_spec (n + 1) n (Nat.lt_succ_self n)
  simp only [decodeDec, natToDec] at *
  rw [if_neg (by simpa [List.isEmpty_iff] using hne), if_pos hall, hval]

theorem natToDec_head_digit (n : Nat) :
    ∀ c cs, natToDec n = c :: cs → isDecDigit c = true := by
  intro c cs hcs
  have hall := (natToDecAux_spec (n + 1) n (Nat.lt_succ_self n)).2.1
  rw [natToDec] at hcs
  rw [hcs] at hall
  simp only [List.all_cons, Bool.and_eq_true] at hall
  exact hall.1

theorem jsNumberOfString_mk_cons (c : Char) (cs : List Char) :
    jsNumberOfString (String.mk (c :: cs)) =
      if c = '-' then (decodeDec cs).map (fun m => -(m : Int))
      else (decodeDec (c :: cs)).map (fun m => (m : Int)) := rfl

/-- The round trip at the heart of the redis handoff: decoding the stored
decimal rendering of a timestamp recovers the timestamp. -/
theorem jsNumber_jsString (n : Int) : jsNumberOfString (jsStringOfNumber n) = some n := by
  by_cases hneg : n < 0
  · rw [jsStringOfNumber, if_pos hneg, jsNumberOfString_mk_cons, if_pos rfl,
      decodeDec_natToDec]
    show some (-(n.natAbs : Int)) = some n
    congr 1
    omega
  · obtain ⟨c, cs, hcs⟩ : ∃ c cs, natToDec n.natAbs = c :: cs := by
      cases h : natToDec n.natAbs with
      | nil => exact absurd h (natToDec_ne_nil _)
      | cons c cs => exact ⟨c, cs, rfl⟩
    have hdig := natToDec_head_digit n.natAbs c cs hcs
    have hcne : c ≠ '-' := by
      intro hc
      rw [hc] at hdig
      simp [isDecDigit] at hdig
    rw [jsStringOfNumber, if_neg hneg, hcs, jsNumberOfString_mk_cons, if_neg hcne, ← hcs,
      decodeDec_natToDec]
    show some ((n.natAbs : Int)) = some n
    congr 1
    omega

/-- The stored rendering of a timestamp is never the empty string, so it is
truthy to the JavaScript emptiness check on retrieval. -/
theorem jsStringOfNumber_ne_empty (n : Int) : jsStringOfNumber n ≠ "" := by
  have h : (jsStringOfNumber n).data ≠ [] := by
    by_cases hneg : n < 0
    · simp [jsStringOfNumber, if_pos hneg, String.data]
    · simp only [jsStringOfNumber, if_neg hneg, String.data]
      exact natToDec_ne_nil _
  intro hc
  rw [hc] at h
  exact h rfl

/-! ## Facts about the redis model and the handoff flow -/

theorem assocFind_cons_self {α : Type} (k : String) (v : α) (l : List (String × α)) :
    assocFind ((k, v) :: l) k = some v := by
  simp [assocFind]

theorem assocFind_assocErase_self {α : Type} (l : List (String × α)) (key : String) :
    assocFind (assocErase l key) key = none := by
  induction l with
  | nil => rfl
  | cons kv rest ih =>
    obtain ⟨k, v⟩ := kv
    by_cases h : k = key
    · simpa [assocErase, List.filter_cons, h] using ih
    · simpa [assocErase, List.filter_cons, h, assocFind] using ih

theorem expire_hashes (s : RedisState) (key : String) (secs : Nat) :
    (expire s key secs).hashes = s.hashes := by
  unfold expire
  split <;> rfl

theorem setData_ids (u p : String) (d : RemindMeFormData) (s : RedisState) :
    setDataAfterTimeInput ⟨some u, some p⟩ d s =
      expire (hSet s (handoffKey u p)
          [("reminderTimestamp", jsStringOfNumber d.reminderTimestamp)])
        (handoffKey u p) (1 * 60 * 60) := rfl

theorem setData_hashes_find (u p : String) (d : RemindMeFormData) (s : RedisState) :
    assocFind (setDataAfterTimeInput ⟨some u, some p⟩ d s).hashes (handoffKey u p) =
      some (("reminderTimestamp", jsStringOfNumber d.reminderTimestamp) ::
        (assocFind s.hashes (handoffKey u p)).getD []) := by
  rw [setData_ids, expire_hashes]
  exact assocFind_cons_self _ _ _

theorem retrieve_ids_eq (u p : String) (s : RedisState) :
    retrieveDataAfterTimeConfirmation ⟨some u, some p⟩ s =
      ((match (assocFind s.hashes (handoffKey u p)).bind
            (fun m => assocFind m "reminderTimestamp") with
        | some str =>
          if str = "" then none
          else
            match jsNumberOfString str with
            | some ts => some ⟨ts⟩
            | none => none
        | none => (none : Option RemindMeFormData)),
        del s (handoffKey u p)) := by
  cases h : (assocFind s.hashes (handoffKey u p)).bind
      (fun m => assocFind m "reminderTimestamp") with
  | none => simp [retrieveDataAfterTimeConfirmation, hMGet, h]
  | some str =>
    simp only [retrieveDataAfterTimeConfirmation, hMGet, List.map_cons, List.map_nil, h]
    by_cases he : str = ""
    · simp [he]
    · cases hj : jsNumberOfString str <;> simp [he, hj]

theorem retrieve_absent (u p : String) (s : RedisState)
    (h : assocFind s.hashes (handoffKey u p) = none) :
    (retrieveDataAfterTimeConfirmation ⟨some u, some p⟩ s).fst = none := by
  rw [retrieve_ids_eq]
  simp [h]

theorem retrieve_snd (u p : String) (s : RedisState) :
    (retrieveDataAfterTimeConfirmation ⟨some u, some p⟩ s).snd =
      del s (handoffKey u p) := by
  rw [retrieve_ids_eq]

theorem take_after_put (u p : String) (d : RemindMeFormData) (s : RedisState) :
    (retrieveDataAfterTimeConfirmation ⟨some u, some p⟩
        (setDataAfterTimeInput ⟨some u, some p⟩ d s)).fst = some d := by
  rw [retrieve_ids_eq]
  simp [setData_hashes_find, assocFind_cons_self, jsStringOfNumber_ne_empty,
    jsNumber_jsString]

theorem retrieve_some_ids (context : FlowContext) (s : RedisState)
    (d : RemindMeFormData) (s1 : RedisState)
    (h : retrieveDataAfterTimeConfirmation context s = (some d, s1)) :
    ∃ u p, context.userId = some u ∧ context.postId = some p := by
  obtain ⟨cu, cp⟩ := context
  cases cu with
  | none => simp [retrieveDataAfterTimeConfirmation] at h
  | some u =>
    cases cp with
    | none => simp [retrieveDataAfterTimeConfirmation] at h
    | some p => exact ⟨u, p, rfl, rfl⟩

/-! ## The claims -/

/-- C1: the handoff is single-use. After a `retrieveDataAfterTimeConfirmation`
that succeeds for a key, a second one for the same key with no intervening
write returns absent, because the key is deleted immediately after the read. -/
theorem C1_takeAndDelete_single_use (context : FlowContext) (s : RedisState)
    (d : RemindMeFormData) (s1 : RedisState)
    (h : retrieveDataAfterTimeConfirmation context s = (some d, s1)) :
    (retrieveDataAfterTimeConfirmation context s1).fst = none := by
  obtain ⟨u, p, hu, hp⟩ := retrieve_some_ids context s d s1 h
  obtain ⟨cu, cp⟩ := context
  simp only at hu hp
  subst hu
  subst hp
  have hs1 : s1 = del s (handoffKey u p) := by
    have hsnd := retrieve_snd u p s
    rw [h] at hsnd
    exact hsnd
  rw [hs1]
  exact retrieve_absent u p _ (assocFind_assocErase_self _ _)

theorem C1_witness :
    (retrieveDataAfterTimeConfirmation ⟨some "u", some "p"⟩
        (RedisState.mk [] [])).fst = none :=
  C1_takeAndDelete_single_use ⟨some "u", some "p"⟩
    (RedisState.mk [("u::p", [("reminderTimestamp", "5")])] [])
    ⟨5⟩ (RedisState.mk [] []) (by decide)

/-- C2: whenever the confirmation step retrieves a reminder timestamp that is
not strictly after the current time, no scheduler job is created: the handler
shows the past-dated error toast and stops. -/
theorem C2_past_time_never_scheduled (context : FlowContext) (now : Int)
    (s : RedisState) (d : RemindMeFormData) (s1 : RedisState)
    (h : retrieveDataAfterTimeConfirmation context s = (some d, s1))
    (hle : d.reminderTimestamp ≤ now) :
    timeConfirmationSubmit context now s =
      ⟨["I can\x27t remind you in the past!"], [], s1⟩ := by
  obtain ⟨cu, cp⟩ := context
  cases cp with
  | none => exfalso; cases cu <;> simp [retrieveDataAfterTimeConfirmation] at h
  | some p =>
    cases cu with
    | none => exfalso; simp [retrieveDataAfterTimeConfirmation] at h
    | some u => simp [timeConfirmationSubmit, h, hle]

theorem C2_witness :
    timeConfirmationSubmit ⟨some "u", some "p"⟩ 5
        (RedisState.mk [("u::p", [("reminderTimestamp", "5")])] []) =
      ⟨["I can\x27t remind you in the past!"], [], RedisState.mk [] []⟩ :=
  C2_past_time_never_scheduled ⟨some "u", some "p"⟩ 5
    (RedisState.mk [("u::p", [("reminderTimestamp", "5")])] [])
    ⟨5⟩ (RedisState.mk [] []) (by decide) (by decide)

/-- C3: firing a job whose actor and target both resolve makes exactly one
messaging-channel call, addressed to the resolved actor; its content includes
the target's fire-time title and the payload's original `initTimestamp`, and
the whole outcome is independent of the fire-time clock. -/
theorem C3_job_fire_sends_exactly_one (env : RedditEnv) (eventData : ReminderJobData)
    (fireTime : Int) (user : RedditUser) (post : RedditPost)
    (hu : env.getUserById eventData.userId = some user)
    (hp : env.getPostById eventData.postId = some post) :
    ∃ msg : PrivateMessage,
      onRunReminder env eventData fireTime = [msg] ∧
      msg.«to» = user.username ∧
      post.title.data <:+: msg.subject.data ∧
      post.title.data <:+: msg.text.data ∧
      (dateToUTCString eventData.initTimestamp).data <:+: msg.text.data ∧
      ∀ t : Int, onRunReminder env eventData t = [msg] := by
  refine ⟨⟨user.username,
      "Reminder for \x27" ++ post.title ++ "\x27 - " ++ APP_NAME,
      "Hey! You asked me to remind you about [" ++ post.title ++ "](" ++ post.permalink ++
        "). You set this reminder on " ++ dateToUTCString eventData.initTimestamp ++ "!"⟩,
    ?_, rfl, ?_, ?_, ?_, ?_⟩
  · simp [onRunReminder, hu, hp]
  · exact ⟨"Reminder for \x27".data, ("\x27 - " ++ APP_NAME).data, by simp⟩
  · exact ⟨"Hey! You asked me to remind you about [".data,
      ("](" ++ post.permalink ++ "). You set this reminder on " ++
        dateToUTCString eventData.initTimestamp ++ "!").data, by simp⟩
  · exact ⟨("Hey! You asked me to remind you about [" ++ post.title ++ "](" ++
        post.permalink ++ "). You set this reminder on ").data, "!".data, by simp⟩
  · intro t
    simp [onRunReminder, hu, hp]

theorem C3_witness :
    ∃ msg : PrivateMessage,
      onRunReminder
          ⟨fun id => if id = "t2_u" then some ⟨"alice"⟩ else none,
            fun id => if id = "t3_p" then some ⟨"Post X", "/r/x/post"⟩ else none⟩
          ⟨"t2_u", "t3_p", 42⟩ 100 = [msg] ∧
      msg.«to» = (⟨"alice"⟩ : RedditUser).username ∧
      (⟨"Post X", "/r/x/post"⟩ : RedditPost).title.data <:+: msg.subject.data ∧
      (⟨"Post X", "/r/x/post"⟩ : RedditPost).title.data <:+: msg.text.data ∧
      (dateToUTCString 42).data <:+: msg.text.data ∧
      ∀ t : Int,
        onRunReminder
          ⟨fun id => if id = "t2_u" then some ⟨"alice"⟩ else none,
            fun id => if id = "t3_p" then some ⟨"Post X", "/r/x/post"⟩ else none⟩
          ⟨"t2_u", "t3_p", 42⟩ t = [msg] :=
  C3_job_fire_sends_exactly_one _ _ 100 ⟨"alice"⟩ ⟨"Post X", "/r/x/post"⟩
    (by decide) (by decide)

/-- C4: firing a job whose actor lookup or target lookup does not resolve
aborts silently, with zero messaging-channel calls. -/
theorem C4_job_fire_unresolved_silent (env : RedditEnv) (eventData : ReminderJobData)
    (fireTime : Int)
    (h : env.getUserById eventData.userId = none ∨
      env.getPostById eventData.postId = none) :
    onRunReminder env eventData fireTime = [] := by
  rcases h with h | h
  · simp [onRunReminder, h]
  · cases hu : env.getUserById eventData.userId <;> simp [onRunReminder, hu, h]

theorem C4_witness :
    onRunReminder ⟨fun _ => none, fun _ => none⟩ ⟨"t2_u", "t3_p", 42⟩ 100 = [] :=
  C4_job_fire_unresolved_silent ⟨fun _ => none, fun _ => none⟩ ⟨"t2_u", "t3_p", 42⟩
    100 (Or.inl rfl)

/-- C5: a `retrieveDataAfterTimeConfirmation` performed right after a
successful `setDataAfterTimeInput` for the same key returns exactly the data
written, the timestamp surviving the string encoding and decoding. -/
theorem C5_take_returns_exact_put (u p : String) (d : RemindMeFormData)
    (s : RedisState) :
    (retrieveDataAfterTimeConfirmation ⟨some u, some p⟩
        (setDataAfterTimeInput ⟨some u, some p⟩ d s)).fst = some d :=
  take_after_put u p d s

/-- C6: `setDataAfterTimeInput` unconditionally overwrites whatever is stored
under the composed key with the new timestamp and (re)sets the one-hour
expiry, so the pair has at most one live handoff record: the last write wins. -/
theorem C6_put_overwrites_and_sets_ttl (u p : String) (d1 d2 : RemindMeFormData)
    (s : RedisState) :
    hMGet (setDataAfterTimeInput ⟨some u, some p⟩ d2 s) (handoffKey u p)
        ["reminderTimestamp"] = [some (jsStringOfNumber d2.reminderTimestamp)] ∧
    ttlOf (setDataAfterTimeInput ⟨some u, some p⟩ d2 s) (handoffKey u p) =
      some (1 * 60 * 60) ∧
    (retrieveDataAfterTimeConfirmation ⟨some u, some p⟩
        (setDataAfterTimeInput ⟨some u, some p⟩ d2
          (setDataAfterTimeInput ⟨some u, some p⟩ d1 s))).fst = some d2 := by
  refine ⟨?_, ?_, take_after_put u p d2 _⟩
  · simp [hMGet, setData_hashes_find, assocFind_cons_self]
  · simp [setDataAfterTimeInput, expire, hSet, ttlOf, assocFind]

/-- C7: when the acting identity or the target identity is unavailable, both
store operations are no-ops returning empty results: no write, expiry-set,
read or delete touches the backend. -/
theorem C7_missing_identity_noop (context : FlowContext) (d : RemindMeFormData)
    (s : RedisState) (h : context.userId = none ∨ context.postId = none) :
    setDataAfterTimeInput context d s = s ∧
    retrieveDataAfterTimeConfirmation context s = (none, s) := by
  obtain ⟨cu, cp⟩ := context
  rcases h with h | h
  · simp only at h
    subst h
    exact ⟨rfl, rfl⟩
  · simp only at h
    subst h
    cases cu <;> exact ⟨rfl, rfl⟩

theorem C7_witness :
    setDataAfterTimeInput ⟨none, some "p"⟩ ⟨5⟩ (RedisState.mk [] []) =
        RedisState.mk [] [] ∧
    retrieveDataAfterTimeConfirmation ⟨none, some "p"⟩ (RedisState.mk [] []) =
      (none, RedisState.mk [] []) :=
  C7_missing_identity_noop ⟨none, some "p"⟩ ⟨5⟩ (RedisState.mk [] []) (Or.inl rfl)

/-- C8: when the parser recognizes no datetime expression in the stage-1
input, the handler shows the user-visible error toast, writes no handoff
record, and does not show the confirmation form. -/
theorem C8_parse_failure_halts (timeString : String) (context : FlowContext)
    (now : Int) (s : RedisState) (h : chronoParseDate timeString now = none) :
    timeInputSubmit timeString context now s =
      ⟨["I couldn\x27t quite get that!"], none, s⟩ := by
  simp [timeInputSubmit, h]

theorem C8_witness :
    timeInputSubmit "asdkjhasd" ⟨some "u", some "p"⟩ 1000 (RedisState.mk [] []) =
      ⟨["I couldn\x27t quite get that!"], none, RedisState.mk [] []⟩ :=
  C8_parse_failure_halts "asdkjhasd" ⟨some "u", some "p"⟩ 1000
    (RedisState.mk [] []) (by decide)

/-- C9: the time parser is pure: the result of a call is determined by the
call's own text and reference time, regardless of its position in a call
sequence and of whatever other calls occur. -/
theorem C9_parser_pure (calls1 calls2 : List (String × Int)) (i j : Nat)
    (c : String × Int) (h1 : calls1[i]? = some c) (h2 : calls2[j]? = some c) :
    (parseCalls calls1)[i]? = (parseCalls calls2)[j]? := by
  simp only [parseCalls, List.getElem?_map, h1, h2]

theorem C9_witness :
    (parseCalls [("in one hour", 0)])[0]? =
      (parseCalls [("x", 3), ("in one hour", 0)])[1]? :=
  C9_parser_pure [("in one hour", 0)] [("x", 3), ("in one hour", 0)] 0 1
    ("in one hour", 0) (by decide) (by decide)

/-- C10: every job the confirmation step actually schedules carries an
`initTimestamp` (the confirmation-time clock value) strictly less than its
`runAt`, because scheduling is reached only when the reminder time is strictly
after that same clock value. -/
theorem C10_initTimestamp_lt_runAt (context : FlowContext) (now : Int)
    (s : RedisState) (job : SchedulerJob)
    (h : job ∈ (timeConfirmationSubmit context now s).jobs) :
    job.data.initTimestamp = now ∧ now < job.runAt ∧
      job.data.initTimestamp < job.runAt := by
  obtain ⟨cu, cp⟩ := context
  cases cp with
  | none => simp [timeConfirmationSubmit] at h
  | some p =>
    cases cu with
    | none => simp [timeConfirmationSubmit] at h
    | some u =>
      cases hr : retrieveDataAfterTimeConfirmation ⟨some u, some p⟩ s with
      | mk dOpt s1 =>
        cases dOpt with
        | none => simp [timeConfirmationSubmit, hr] at h
        | some d =>
          by_cases hle : d.reminderTimestamp ≤ now
          · simp [timeConfirmationSubmit, hr, hle] at h
          · simp [timeConfirmationSubmit, hr, hle] at h
            subst h
            refine ⟨rfl, ?_, ?_⟩ <;> simp only <;> omega

theorem C10_witness :
    (SchedulerJob.mk "reminder" 5 ⟨"u", "p", 3⟩).data.initTimestamp = 3 ∧
    (3 : Int) < (SchedulerJob.mk "reminder" 5 ⟨"u", "p", 3⟩).runAt ∧
    (SchedulerJob.mk "reminder" 5 ⟨"u", "p", 3⟩).data.initTimestamp <
      (SchedulerJob.mk "reminder" 5 ⟨"u", "p", 3⟩).runAt :=
  C10_initTimestamp_lt_runAt ⟨some "u", some "p"⟩ 3
    (RedisState.mk [("u::p", [("reminderTimestamp", "5")])] [])
    (SchedulerJob.mk "reminder" 5 ⟨"u", "p", 3⟩) (by decide)
